import Mathlib

/-!
Shallow embedding of `astrbot_plugin_portrayal` (`src/main.py`) and proofs
about it.  The plugin fetches a group member's chat history through a bot
RPC, builds an LLM context from it, asks an LLM for a personality profile
and renders the result.

Conventions used throughout this development:

* Python dictionaries coming from the gateway are modelled as structures
  whose fields are `Option`-valued when the corresponding key may be
  absent; `d.get(k)` / `d.get(k, default)` become `Option` reads, while a
  raw `d[k]` access on a possibly-missing key is modelled in the `Except`
  monad (a `.error` models the raised `KeyError`).
* External calls (`call_action`, `llm_generate`, `get_group_member_info`,
  `get_stranger_info`) are modelled as oracle functions passed in as
  arguments; `none` models a raised exception, `some v` a successful
  return of `v`.
* `await asyncio.sleep d` is modelled by recording `d` in a trace list;
  retry loops additionally record how many calls they issued.  These
  instrumentation fields are extra observations on top of the values the
  Python functions actually return.
* `datetime.fromtimestamp(ts).strftime(...)` is modelled by an explicit
  proleptic-Gregorian conversion at UTC (the host's local timezone is a
  deployment detail; no claim depends on the rendered digits).
-/

/-! ## Time formatting helpers (`datetime.fromtimestamp(..).strftime(..)`) -/

/-- Two-digit zero padding used by `strftime` fields `%m %d %H %M`. -/
def pad2 (n : Nat) : String :=
  if n < 10 then "0" ++ Nat.repr n else Nat.repr n

/-- Civil date (year, month, day) of a day count since 1970-01-01 (UTC). -/
def dateOfDays (z : Nat) : Nat × Nat × Nat :=
  let z' := z + 719468
  let era := z' / 146097
  let doe := z' % 146097
  let yoe := (doe - doe / 1460 + doe / 36524 - doe / 146096) / 365
  let y := yoe + era * 400
  let doy := doe - (365 * yoe + yoe / 4 - yoe / 100)
  let mp := (5 * doy + 2) / 153
  let d := doy - (153 * mp + 2) / 5 + 1
  let m := if mp < 10 then mp + 3 else mp - 9
  (if m ≤ 2 then y + 1 else y, m, d)

/-- `strftime("%Y-%m-%d")` of a Unix timestamp. -/
def formatDate (ts : Nat) : String :=
  let ymd := dateOfDays (ts / 86400)
  Nat.repr ymd.1 ++ "-" ++ pad2 ymd.2.1 ++ "-" ++ pad2 ymd.2.2

/-- `strftime("%Y-%m-%d %H:%M")` of a Unix timestamp. -/
def formatTimestamp (ts : Nat) : String :=
  let rem := ts % 86400
  formatDate ts ++ " " ++ pad2 (rem / 3600) ++ ":" ++ pad2 (rem % 3600 / 60)

/-- Python's whitespace set for `str.strip()` (ASCII part): space, tab,
newline, carriage return, vertical tab, form feed. -/
def isPyWs (c : Char) : Bool :=
  c == ' ' || c == '\t' || c == '\n' || c == '\r' || c == Char.ofNat 11 || c == Char.ofNat 12

/-- Python's `str.strip()`: drop leading and trailing whitespace. -/
def pyStrip (s : String) : String :=
  String.mk (((s.data.dropWhile isPyWs).reverse.dropWhile isPyWs).reverse)

/-! ## Data model: raw gateway messages and context turns -/

/-- One entry of `msg["message"]`: a typed content segment.
`segType` models `seg["type"]` (`none` = key missing, access raises);
`segText` models `seg["data"]["text"]` (`none` = `data` or `text`
missing, access raises). -/
structure ContentSeg where
  segType : Option String
  segText : Option String
deriving Repr, DecidableEq

/-- One historical message as returned by `get_group_msg_history`.
`senderUserId` models `msg.get("sender", {}).get("user_id")`,
`message` models the raw `msg["message"]` access (`none` = key missing),
`messageId` models the raw `msg["message_id"]` access,
`time` models `msg.get("time", 0)`. -/
structure RawMessage where
  senderUserId : Option Int
  message : Option (List ContentSeg)
  messageId : Option Int
  time : Nat
deriving Repr, DecidableEq

/-- One OpenAI-style context record `{"role": "user", "content": text}`. -/
structure ContextTurn where
  role : String
  content : String
deriving Repr, DecidableEq

/-! ## `_build_user_context` (src/main.py lines 258-279) -/

/-- The list comprehension
`[seg["data"]["text"] for seg in msg["message"] if seg["type"] == "text"]`,
evaluated left to right; the first missing key raises. -/
def extractTexts : List ContentSeg → Except Unit (List String)
  | [] => .ok []
  | seg :: rest =>
    match seg.segType with
    | none => .error ()
    | some t =>
      if t = "text" then
        match seg.segText with
        | none => .error ()
        | some s =>
          match extractTexts rest with
          | .error e => .error e
          | .ok tl => .ok (s :: tl)
      else extractTexts rest

/-- The body of `_build_user_context`'s loop for one message: skip when
the sender does not match, join and strip the text segments, prepend the
formatted timestamp when `time` is truthy, and emit the turn when the
resulting string is truthy.  Mirrors the statement order of the source:
the timestamp is prepended before the emptiness test. -/
def buildOneMessage (targetId : Int) (msg : RawMessage) : Except Unit (List ContextTurn) :=
  if msg.senderUserId ≠ some targetId then .ok []
  else
    match msg.message with
    | none => .error ()
    | some segs =>
      match extractTexts segs with
      | .error e => .error e
      | .ok texts =>
        let joined := pyStrip (String.join texts)
        let text := if msg.time ≠ 0 then "[" ++ formatTimestamp msg.time ++ "] " ++ joined else joined
        .ok (if text ≠ "" then [⟨"user", text⟩] else [])

/-- `_build_user_context(round_messages, target_id)`.  The Python
function takes the target id as a string and converts it with
`int(target_id)`; the model takes the converted integer.  A raised
`KeyError` inside the loop aborts the whole call (`.error`). -/
def buildUserContext : List RawMessage → Int → Except Unit (List ContextTurn)
  | [], _ => .ok []
  | msg :: rest, targetId =>
    match buildOneMessage targetId msg with
    | .error e => .error e
    | .ok hd =>
      match buildUserContext rest targetId with
      | .error e => .error e
      | .ok tl => .ok (hd ++ tl)

/-! ## `get_msg_contexts` (src/main.py lines 281-328) -/

/-- Result of one run of `get_msg_contexts`, instrumented.
`contexts`/`rounds` are the values the Python function returns (when
`raised = false`); `cursors` lists the `message_seq` value of each
iteration's request payload, `sleeps` the `asyncio.sleep` durations in
seconds, `calls` the number of `call_action` attempts issued.
`raised = true` records that an exception escaped (a `KeyError` from
`_build_user_context`), in which case nothing is returned to the caller. -/
structure FetchResult where
  contexts : List ContextTurn
  rounds : Nat
  cursors : List Int
  sleeps : List Nat
  calls : Nat
  raised : Bool
deriving Repr, DecidableEq

/-- The inner `for attempt in range(MAX_RETRIES)` retry loop around
`call_action("get_group_msg_history", ...)`, with `MAX_RETRIES = 3` and
`BASE_DELAY = 1.0`: on an exception at attempt `k < 2` sleep
`BASE_DELAY * 2 ** k`; after the third failure only log.  The oracle
`api` maps (global attempt index, message_seq cursor) to `none` (raised)
or `some messages` (the `result.get("messages", [])` value).  Returns
the final `round_messages`, the sleeps performed and the attempts used. -/
def attemptPage (api : Nat → Int → Option (List RawMessage)) (idx : Nat) (seq : Int) :
    Option (List RawMessage) × List Nat × Nat :=
  match api idx seq with
  | some page => (some page, [], 1)
  | none =>
    match api (idx + 1) seq with
    | some page => (some page, [1], 2)
    | none =>
      match api (idx + 2) seq with
      | some page => (some page, [1, 2], 3)
      | none => (none, [1, 2], 3)

/-- The `while len(contexts) < target_count` loop of `get_msg_contexts`.
State: `idx` global attempt counter (instrumentation), `seq` the current
`message_seq` cursor, `rounds` = `query_rounds`, `acc` = `contexts`.
Breaks mirror the source: falsy `round_messages`; `KeyError`/`IndexError`
on `round_messages[0]["message_id"]`; `query_rounds >= max_query_rounds`
after the increment.  `contexts.extend(self._build_user_context(...))`
may raise, which aborts the loop with `raised = true`. -/
def fetchLoop (api : Nat → Int → Option (List RawMessage)) (targetId : Int)
    (targetCount : Nat) (maxRounds : Nat) (idx : Nat) (seq : Int)
    (rounds : Nat) (acc : List ContextTurn) : FetchResult :=
  if acc.length < targetCount then
    match attemptPage api idx seq with
    | (none, sl, n) => ⟨acc, rounds, [seq], sl, n, false⟩
    | (some [], sl, n) => ⟨acc, rounds, [seq], sl, n, false⟩
    | (some (m :: rest), sl, n) =>
      match m.messageId with
      | none => ⟨acc, rounds, [seq], sl, n, false⟩
      | some newSeq =>
        match buildUserContext (m :: rest) targetId with
        | .error _ => ⟨acc, rounds, [seq], sl, n, true⟩
        | .ok newCtx =>
          if h : rounds + 1 ≥ maxRounds then
            ⟨acc ++ newCtx, rounds + 1, [seq], sl, n, false⟩
          else
            let r := fetchLoop api targetId targetCount maxRounds (idx + n) newSeq
              (rounds + 1) (acc ++ newCtx)
            ⟨r.contexts, r.rounds, seq :: r.cursors, sl ++ r.sleeps, n + r.calls, r.raised⟩
  else ⟨acc, rounds, [], [], 0, false⟩
termination_by maxRounds - rounds
decreasing_by omega

/-- `get_msg_contexts(event, target_id, max_query_rounds)`.
`targetCount` is `self.conf.get("max_msg_count", 500)` (the page size
`per_msg_count` only shapes the request payload and is irrelevant to the
control flow).  `query_rounds`, `message_seq` and `contexts` start at
`0`, `0` and `[]`. -/
def get_msg_contexts (api : Nat → Int → Option (List RawMessage)) (targetId : Int)
    (targetCount : Nat) (maxRounds : Nat) : FetchResult :=
  fetchLoop api targetId targetCount maxRounds 0 0 0 []

/-! ## Round-count bounds for the fetch loop -/

/-- Invariant of the fetch loop: starting from `rounds` completed rounds,
the final round count and the number of loop iterations (one requested
cursor per iteration) stay below `max (rounds + 1) maxRounds`: the round
check happens only after the increment, so one extra round beyond a
`maxRounds` of `0` is possible, but never more. -/
theorem fetchLoop_bounds (api : Nat → Int → Option (List RawMessage)) (t : Int)
    (tc mr : Nat) : ∀ idx seq rounds acc,
    (fetchLoop api t tc mr idx seq rounds acc).rounds ≤ max (rounds + 1) mr ∧
    (fetchLoop api t tc mr idx seq rounds acc).cursors.length + rounds ≤ max (rounds + 1) mr := by
  intro idx seq rounds acc
  induction idx, seq, rounds, acc using fetchLoop.induct api t tc mr with
  | case1 idx seq rounds acc hlt sl n hA =>
    rw [fetchLoop]; simp [hlt, hA]; omega
  | case2 idx seq rounds acc hlt sl n hA =>
    rw [fetchLoop]; simp [hlt, hA]; omega
  | case3 idx seq rounds acc hlt m rest sl n hA hm =>
    rw [fetchLoop]; simp [hlt, hA, hm]; omega
  | case4 idx seq rounds acc hlt m rest sl n hA newSeq hm e hb =>
    rw [fetchLoop]; simp [hlt, hA, hm, hb]; omega
  | case5 idx seq rounds acc hlt m rest sl n hA newSeq hm tl hb hge =>
    rw [fetchLoop]; simp [hlt, hA, hm, hb, hge]; omega
  | case6 idx seq rounds acc hlt m rest sl n hA newSeq hm tl hb hge ih =>
    rw [fetchLoop]; simp [hlt, hA, hm, hb, hge]
    have h2 : rounds + 1 + 1 ≤ mr := by omega
    rw [Nat.max_eq_right h2] at ih
    obtain ⟨ih1, ih2⟩ := ih
    exact ⟨Or.inr (by omega), Or.inr (by omega)⟩
  | case7 idx seq rounds acc hge =>
    rw [fetchLoop]; simp [hge]

/-- C2 (amended): for every RPC behaviour, target and target message
count, the round count returned by `get_msg_contexts` — and likewise the
number of loop iterations — is at most `max 1 maxRounds`.  In particular
it is at most `maxRounds` for every `maxRounds` in `[1, 200]`; for
`maxRounds = 0` one round may still execute, because the
`query_rounds >= max_query_rounds` test only runs after a successful
page has been consumed and counted. -/
theorem c2_round_count_bounded :
    ∀ (api : Nat → Int → Option (List RawMessage)) (targetId : Int)
      (targetCount maxRounds : Nat),
    (get_msg_contexts api targetId targetCount maxRounds).rounds ≤ max 1 maxRounds ∧
    (get_msg_contexts api targetId targetCount maxRounds).cursors.length ≤ max 1 maxRounds := by
  intro api targetId targetCount maxRounds
  have h := fetchLoop_bounds api targetId targetCount maxRounds 0 0 0 []
  rw [get_msg_contexts]
  omega

/-- An RPC behaviour that always succeeds with the same one-message page
(the message is authored by user 99 and carries message id 7). -/
def apiOnePage : Nat → Int → Option (List RawMessage) :=
  fun _ _ => some [{ senderUserId := some 99, message := some [], messageId := some 7, time := 0 }]

/-- C2 (counterexample): with `maxRounds = 0` — a value the caller's
clamp `min(200, max(0, n))` can produce — and an RPC that returns a
non-empty page, `get_msg_contexts` still executes one round and returns
round count `1 > 0`, contradicting the claimed `rounds ≤ maxRounds`. -/
theorem c2_maxrounds_zero_counterexample :
    (get_msg_contexts apiOnePage 1 500 0).rounds = 1 ∧
    ¬((get_msg_contexts apiOnePage 1 500 0).rounds ≤ 0) := by
  have h : get_msg_contexts apiOnePage 1 500 0 =
      { contexts := [], rounds := 1, cursors := [0], sleeps := [], calls := 1, raised := false } := by
    simp [get_msg_contexts, fetchLoop, attemptPage, apiOnePage, buildUserContext, buildOneMessage]
  rw [h]
  exact ⟨rfl, by decide⟩

/-- C3: if the history RPC raises on every call, `get_msg_contexts`
returns the empty context list and round count `0`, after exactly `3`
request attempts for the single attempted page, with sleeps of `1` and
`2` seconds between consecutive attempts and no sleep after the final
failure.  (The hypothesis `0 < targetCount` says the configured target
message count is positive, as with the default `500`; otherwise the
`while` loop never starts.) -/
theorem c3_always_failing_rpc_retries :
    ∀ (targetId : Int) (targetCount maxRounds : Nat), 0 < targetCount →
    get_msg_contexts (fun _ _ => none) targetId targetCount maxRounds =
      { contexts := [], rounds := 0, cursors := [0], sleeps := [1, 2], calls := 3, raised := false } := by
  intro targetId targetCount maxRounds h
  rw [get_msg_contexts, fetchLoop]
  simp [attemptPage, h]

/-- Witness for C3 at the default configuration (target count 500,
10 rounds). -/
theorem c3_always_failing_rpc_retries_witness :
    get_msg_contexts (fun _ _ => none) 1 500 10 =
      { contexts := [], rounds := 0, cursors := [0], sleeps := [1, 2], calls := 3, raised := false } :=
  c3_always_failing_rpc_retries 1 500 10 (by decide)

/-! ## Cursor behaviour of the fetch loop (pagination invariant) -/

/-- The backward-pagination contract of the history API, as the spec
assumes it: every successfully returned non-empty page starts with a
message whose id is present, positive, and — for a non-initial cursor —
strictly smaller than the cursor it was requested with. -/
def apiMonotone (api : Nat → Int → Option (List RawMessage)) : Prop :=
  ∀ n c m rest, api n c = some (m :: rest) →
    ∃ mid, m.messageId = some mid ∧ 0 < mid ∧ (c ≠ 0 → mid < c)

/-- `descFrom s l`: every element of `l` is positive, the first is below
`s` whenever `s` is not the initial cursor `0`, and the rest descend
strictly. -/
def descFrom : Int → List Int → Prop
  | _, [] => True
  | s, c :: cs => 0 < c ∧ (s ≠ 0 → c < s) ∧ descFrom c cs

theorem descFrom_pos : ∀ (s : Int) (l : List Int), descFrom s l → ∀ x ∈ l, 0 < x := by
  intro s l
  induction l generalizing s with
  | nil => intro _ x hx; cases hx
  | cons c cs ih =>
    intro h x hx
    obtain ⟨hc, _, hrest⟩ := h
    rcases List.mem_cons.mp hx with rfl | hx'
    · exact hc
    · exact ih c hrest x hx'

theorem descFrom_lt : ∀ (s : Int) (l : List Int), 0 < s → descFrom s l → ∀ x ∈ l, x < s := by
  intro s l
  induction l generalizing s with
  | nil => intro _ _ x hx; cases hx
  | cons c cs ih =>
    intro hs h x hx
    obtain ⟨hc, hlt, hrest⟩ := h
    have hcs : c < s := hlt (by omega)
    rcases List.mem_cons.mp hx with rfl | hx'
    · exact hcs
    · exact lt_trans (ih c hc hrest x hx') hcs

theorem descFrom_nodup : ∀ (s : Int) (l : List Int), descFrom s l → l.Nodup := by
  intro s l
  induction l generalizing s with
  | nil => intro _; exact List.nodup_nil
  | cons c cs ih =>
    intro h
    obtain ⟨hc, _, hrest⟩ := h
    refine List.nodup_cons.mpr ⟨?_, ih c hrest⟩
    intro hmem
    have := descFrom_lt c cs hc hrest c hmem
    omega

/-- A successful page produced by the retry wrapper comes from some
actual `call_action` attempt at the same cursor. -/
theorem attemptPage_api : ∀ (api : Nat → Int → Option (List RawMessage)) idx seq page sl n,
    attemptPage api idx seq = (some page, sl, n) → ∃ j, api j seq = some page := by
  intro api idx seq page sl n h
  unfold attemptPage at h
  rcases h1 : api idx seq with _ | p
  · rw [h1] at h
    rcases h2 : api (idx + 1) seq with _ | p2
    · rw [h2] at h
      rcases h3 : api (idx + 2) seq with _ | p3
      · rw [h3] at h; simp at h
      · rw [h3] at h; simp at h; exact ⟨idx + 2, by rw [h3, h.1]⟩
    · rw [h2] at h; simp at h; exact ⟨idx + 1, by rw [h2, h.1]⟩
  · rw [h1] at h; simp at h; exact ⟨idx, by rw [h1, h.1]⟩

/-- Cursor-shape invariant of the fetch loop: the requested cursors are
the starting cursor followed by a `descFrom` chain of first-item message
ids, provided the API honours `apiMonotone`. -/
theorem fetchLoop_cursors_desc (api : Nat → Int → Option (List RawMessage)) (t : Int)
    (tc mr : Nat) (hmono : apiMonotone api) :
    ∀ idx seq rounds acc,
      (fetchLoop api t tc mr idx seq rounds acc).cursors = [] ∨
      ∃ tail, (fetchLoop api t tc mr idx seq rounds acc).cursors = seq :: tail ∧
        descFrom seq tail := by
  intro idx seq rounds acc
  induction idx, seq, rounds, acc using fetchLoop.induct api t tc mr with
  | case1 idx seq rounds acc hlt sl n hA =>
    refine Or.inr ⟨[], ?_, trivial⟩
    rw [fetchLoop]; simp [hlt, hA]
  | case2 idx seq rounds acc hlt sl n hA =>
    refine Or.inr ⟨[], ?_, trivial⟩
    rw [fetchLoop]; simp [hlt, hA]
  | case3 idx seq rounds acc hlt m rest sl n hA hm =>
    refine Or.inr ⟨[], ?_, trivial⟩
    rw [fetchLoop]; simp [hlt, hA, hm]
  | case4 idx seq rounds acc hlt m rest sl n hA newSeq hm e hb =>
    refine Or.inr ⟨[], ?_, trivial⟩
    rw [fetchLoop]; simp [hlt, hA, hm, hb]
  | case5 idx seq rounds acc hlt m rest sl n hA newSeq hm tl hb hge =>
    refine Or.inr ⟨[], ?_, trivial⟩
    rw [fetchLoop]; simp [hlt, hA, hm, hb, hge]
  | case6 idx seq rounds acc hlt m rest sl n hA newSeq hm tl hb hge ih =>
    obtain ⟨j, hj⟩ := attemptPage_api api idx seq (m :: rest) sl n hA
    obtain ⟨mid, hmid, hpos, hltc⟩ := hmono j seq m rest hj
    rw [hm] at hmid
    have hms : newSeq = mid := Option.some.inj hmid
    subst hms
    have hcur : (fetchLoop api t tc mr idx seq rounds acc).cursors =
        seq :: (fetchLoop api t tc mr (idx + n) newSeq (rounds + 1) (acc ++ tl)).cursors := by
      rw [fetchLoop]
      simp [hlt, hA, hm, hb, hge]
    rcases ih with hnil | ⟨tail, htail, hdesc⟩
    · refine Or.inr ⟨[], ?_, trivial⟩
      rw [hcur, hnil]
    · refine Or.inr ⟨newSeq :: tail, ?_, ?_⟩
      · rw [hcur, htail]
      · exact ⟨hpos, hltc, hdesc⟩
  | case7 idx seq rounds acc hge =>
    rw [fetchLoop]; simp [hge]

/-- C7 (amended): after each successful non-empty page the next cursor
is that page's first-item message id, so *provided the API honours its
monotonic backward-pagination contract* (`apiMonotone`) the loop never
re-requests an already-consumed cursor: all requested cursors are
pairwise distinct.  The code itself performs no check — a page that
violates the contract is simply consumed again (see the counterexample),
not treated as a malformed-response error; the only malformed responses
it detects are a first item without a message id, which terminates the
loop. -/
theorem c7_monotone_api_no_repeat :
    ∀ (api : Nat → Int → Option (List RawMessage)) (targetId : Int) (targetCount maxRounds : Nat),
    apiMonotone api →
    (get_msg_contexts api targetId targetCount maxRounds).cursors.Nodup := by
  intro api t tc mr hmono
  rcases fetchLoop_cursors_desc api t tc mr hmono 0 0 0 [] with hnil | ⟨tail, htail, hdesc⟩
  · rw [get_msg_contexts, hnil]
    exact List.nodup_nil
  · rw [get_msg_contexts, htail]
    refine List.nodup_cons.mpr ⟨?_, descFrom_nodup 0 tail hdesc⟩
    intro hmem
    have := descFrom_pos 0 tail hdesc 0 hmem
    omega

/-- A well-behaved API: one page at the initial cursor, end of history
afterwards. -/
def apiGoodPage : Nat → Int → Option (List RawMessage) :=
  fun _ c =>
    if c = 0 then
      some [{ senderUserId := some 99, message := some [], messageId := some 7, time := 0 }]
    else none

/-- Witness for C7 (amended) at a concrete monotone API. -/
theorem c7_monotone_api_no_repeat_witness :
    (get_msg_contexts apiGoodPage 1 500 5).cursors.Nodup :=
  c7_monotone_api_no_repeat apiGoodPage 1 500 5 (by
    intro n c m rest h
    by_cases hc : c = 0
    · subst hc
      simp [apiGoodPage] at h
      exact ⟨7, by simp [← h.1], by decide, fun hc0 => absurd rfl hc0⟩
    · simp [apiGoodPage, hc] at h)

/-- A contract-violating API: every page repeats first-item message id
`0`, which equals the initial cursor. -/
def apiRepeatPage : Nat → Int → Option (List RawMessage) :=
  fun _ _ => some [{ senderUserId := some 99, message := some [], messageId := some 0, time := 0 }]

/-- C7 (counterexample): when the API repeats an already-consumed
cursor, `get_msg_contexts` re-requests cursor `0` on every round and
completes normally (`raised = false`, three full rounds) — the repeated
cursor is *not* treated as a malformed-response error, and the requested
cursors are not distinct.  This refutes the frozen claim that the loop
never re-requests a consumed page and errors on contract violations. -/
theorem c7_repeated_cursor_counterexample :
    (get_msg_contexts apiRepeatPage 1 500 3).cursors = [0, 0, 0] ∧
    (get_msg_contexts apiRepeatPage 1 500 3).raised = false ∧
    ¬ (get_msg_contexts apiRepeatPage 1 500 3).cursors.Nodup := by
  have h : get_msg_contexts apiRepeatPage 1 500 3 =
      { contexts := [], rounds := 3, cursors := [0, 0, 0], sleeps := [], calls := 3, raised := false } := by
    simp [get_msg_contexts, fetchLoop, attemptPage, apiRepeatPage, buildUserContext, buildOneMessage]
  rw [h]
  exact ⟨rfl, rfl, by decide⟩

/-! ## Claims about `_build_user_context` (C1, C6) -/

/-- A target-authored message whose only content segment is an image,
with a non-zero send time. -/
def msgImageOnly : RawMessage :=
  { senderUserId := some 123, message := some [{ segType := some "image", segText := none }],
    messageId := some 1, time := 1700000000 }

/-- C1 (code evaluated at the failing input): a message with no
"text"-typed segment *is* emitted when its send time is non-zero — the
timestamp prefix is attached before the final emptiness test, so the
emitted turn is the bare `"[YYYY-MM-DD HH:MM] "` prefix; with send time
`0` the same message is skipped.  This contradicts the claim (and
spec §4.2's stated order: trim, skip if empty, then prepend timestamp);
the code's own `if text:` skip check exists but is defeated by the
ordering, so the text-free-message case resurrects as a junk turn. -/
theorem c1_timestamp_resurrects_textless_message :
    buildUserContext [msgImageOnly] 123 =
      Except.ok [{ role := "user", content := "[" ++ formatTimestamp 1700000000 ++ "] " }] ∧
    buildUserContext [{ msgImageOnly with time := 0 }] 123 = Except.ok [] := by
  constructor
  · rfl
  · rfl

/-- C6 (counterexample): `_build_user_context` is not total on malformed
input.  A target-authored message lacking the `"message"` segment list
raises (`msg["message"]` is a raw access), and so does a `"text"`-typed
segment without its text payload (`seg["data"]["text"]`); either aborts
the whole batch instead of skipping the message. -/
theorem c6_missing_fields_raise_counterexample :
    buildUserContext [{ senderUserId := some 5, message := none, messageId := some 1, time := 0 }] 5 =
      Except.error () ∧
    buildUserContext
      [{ senderUserId := some 5, message := some [{ segType := some "text", segText := none }],
         messageId := some 1, time := 0 }] 5 = Except.error () := ⟨rfl, rfl⟩

/-- A content segment the raw accesses of `_build_user_context` cannot
trip over: it has a `"type"` and, if that type is `"text"`, a payload. -/
def segFieldsOk (seg : ContentSeg) : Bool :=
  match seg.segType with
  | none => false
  | some t => t != "text" || seg.segText.isSome

/-- A message `_build_user_context` handles without raising: either its
sender is missing or differs from the target (it is skipped before any
raw access), or its segment list is present with well-formed segments. -/
def msgFieldsOk (targetId : Int) (msg : RawMessage) : Bool :=
  msg.senderUserId != some targetId ||
    (match msg.message with
     | none => false
     | some segs => segs.all segFieldsOk)

theorem extractTexts_ok : ∀ segs : List ContentSeg, (∀ seg ∈ segs, segFieldsOk seg = true) →
    ∃ texts, extractTexts segs = Except.ok texts := by
  intro segs
  induction segs with
  | nil => intro _; exact ⟨[], rfl⟩
  | cons seg rest ih =>
    intro h
    have hseg := h seg (List.mem_cons_self _ _)
    have hrest : ∀ s ∈ rest, segFieldsOk s = true := fun s hs => h s (List.mem_cons_of_mem _ hs)
    obtain ⟨tl, htl⟩ := ih hrest
    unfold segFieldsOk at hseg
    cases ht : seg.segType with
    | none => rw [ht] at hseg; simp at hseg
    | some t =>
      rw [ht] at hseg
      by_cases htt : t = "text"
      · subst htt
        simp at hseg
        cases hx : seg.segText with
        | none => rw [hx] at hseg; simp at hseg
        | some s =>
          refine ⟨s :: tl, ?_⟩
          unfold extractTexts
          simp [ht, hx, htl]
      · refine ⟨tl, ?_⟩
        unfold extractTexts
        simp [ht, htt, htl]

theorem buildOneMessage_ok (targetId : Int) (msg : RawMessage)
    (h : msgFieldsOk targetId msg = true) :
    ∃ l, buildOneMessage targetId msg = Except.ok l := by
  unfold msgFieldsOk at h
  by_cases hs : msg.senderUserId ≠ some targetId
  · exact ⟨[], by unfold buildOneMessage; simp [hs]⟩
  · simp [hs] at h
    cases hm : msg.message with
    | none => rw [hm] at h; simp at h
    | some segs =>
      rw [hm] at h; simp at h
      obtain ⟨texts, htx⟩ := extractTexts_ok segs (by
        intro s hsm
        exact h s hsm)
      unfold buildOneMessage
      simp only [hs, hm, htx]
      simp

/-- C6 (amended): `_build_user_context` raises no exception as long as
every message either comes from a different (or missing) sender — such
messages are skipped before any raw key access — or carries a
well-formed segment list; a target-authored message missing the segment
list, a segment type, or a text payload raises and aborts the batch
(see the counterexample). -/
theorem c6_wellformed_input_never_raises :
    ∀ (page : List RawMessage) (targetId : Int),
      (∀ msg ∈ page, msgFieldsOk targetId msg = true) →
      ∃ l, buildUserContext page targetId = Except.ok l := by
  intro page targetId
  induction page with
  | nil => intro _; exact ⟨[], rfl⟩
  | cons msg rest ih =>
    intro h
    obtain ⟨hd, hhd⟩ := buildOneMessage_ok targetId msg (h msg (List.mem_cons_self _ _))
    obtain ⟨tl, htl⟩ := ih fun m hm => h m (List.mem_cons_of_mem _ hm)
    exact ⟨hd ++ tl, by unfold buildUserContext; rw [hhd, htl]⟩

/-- A batch mixing a malformed foreign message with a well-formed target
message. -/
def pageMixed : List RawMessage :=
  [ { senderUserId := some 9, message := none, messageId := none, time := 0 },
    { senderUserId := none, message := none, messageId := none, time := 0 },
    { senderUserId := some 5, message := some [{ segType := some "text", segText := some "hi" }],
      messageId := some 2, time := 0 } ]

/-- Witness for C6 (amended): the malformed messages from other (or
absent) senders are tolerated and the batch still processes. -/
theorem c6_wellformed_input_never_raises_witness :
    ∃ l, buildUserContext pageMixed 5 = Except.ok l :=
  c6_wellformed_input_never_raises pageMixed 5 (by decide)

/-! ## `_has_api_error_pattern` (src/main.py lines 330-353)

The combined regex `"|".join(error_patterns)` with `re.IGNORECASE` is
embedded as a token matcher: each alternative is a list of tokens, where
a token is a case-insensitive literal character (all pattern letters),
`\s*` or `\d`.  `search` semantics = a match starting at any position. -/

/-- One regex token of the error patterns: case-insensitive literal,
`\s*`, or `\d`. -/
inductive RTok where
  | lit (c : Char)
  | ws
  | digit
deriving Repr, DecidableEq

/-- Case-insensitive character comparison (`re.IGNORECASE`). -/
def charEqCI (p c : Char) : Bool := p.toLower == c.toLower

/-- All suffixes reachable by dropping zero or more leading whitespace
characters — the candidate continuations of a `\s*`. -/
def wsSkips : List Char → List (List Char)
  | [] => [[]]
  | c :: cs => (c :: cs) :: (if isPyWs c then wsSkips cs else [])

/-- Does the token list match a prefix of the character list? -/
def matchToks : List RTok → List Char → Bool
  | [], _ => true
  | .lit p :: ts, cs =>
    match cs with
    | c :: cs' => charEqCI p c && matchToks ts cs'
    | [] => false
  | .digit :: ts, cs =>
    match cs with
    | c :: cs' => c.isDigit && matchToks ts cs'
    | [] => false
  | .ws :: ts, cs => (wsSkips cs).any fun cs' => matchToks ts cs'

/-- `re.search` for one alternative: match at any start position. -/
def searchToks (ts : List RTok) : List Char → Bool
  | [] => matchToks ts []
  | c :: cs' => matchToks ts (c :: cs') || searchToks ts cs'

/-- Literal characters of a pattern fragment. -/
def lits (s : String) : List RTok := s.data.map RTok.lit

/-- The alternative `Error\s*code:\s*5\d{2}` of `error_patterns`. -/
def errPat503 : List RTok :=
  lits "Error" ++ [RTok.ws] ++ lits "code:" ++ [RTok.ws] ++ lits "5" ++ [RTok.digit, RTok.digit]

/-- The ten alternatives of `error_patterns` in source order. -/
def errorPatterns : List (List RTok) :=
  [ errPat503
  , lits "APITimeoutError"
  , lits "Request" ++ [RTok.ws] ++ lits "timed" ++ [RTok.ws] ++ lits "out"
  , lits "InternalServerError"
  , lits "count_token_failed"
  , lits "bad_response_status_code"
  , lits "connection" ++ [RTok.ws] ++ lits "error"
  , lits "remote" ++ [RTok.ws] ++ lits "disconnected"
  , lits "read" ++ [RTok.ws] ++ lits "timeout"
  , lits "connect" ++ [RTok.ws] ++ lits "timeout" ]

/-- `bool(combined_pattern.search(text))`. -/
def searchAnyPattern (cs : List Char) : Bool :=
  errorPatterns.any fun p => searchToks p cs

/-- Python's `needle in haystack` helpers: prefix test... -/
def startsWithL : List Char → List Char → Bool
  | [], _ => true
  | _ :: _, [] => false
  | n :: ns, h :: hs => n == h && startsWithL ns hs

/-- ...and substring test at any position. -/
def containsSub (n : List Char) : List Char → Bool
  | [] => startsWithL n []
  | c :: hs' => startsWithL n (c :: hs') || containsSub n hs'

/-- `_has_api_error_pattern(text)`: falsy text short-circuits to
`False`; the AstrBot-and-请求失败 pair short-circuits to `True`;
otherwise the combined case-insensitive regex search decides. -/
def hasApiErrorPattern (text : String) : Bool :=
  if text = "" then false
  else if containsSub "AstrBot".data text.data && containsSub "请求失败".data text.data then true
  else searchAnyPattern text.data

/-! ### Lemmas about the matcher -/

theorem charEqCI_self (c : Char) : charEqCI c c = true := by simp [charEqCI]

theorem startsWithL_iff : ∀ (n h : List Char), startsWithL n h = true ↔ ∃ rest, h = n ++ rest := by
  intro n
  induction n with
  | nil => intro h; simp [startsWithL]
  | cons c ns ih =>
    intro h
    cases h with
    | nil => simp [startsWithL]
    | cons d hs =>
      simp [startsWithL, ih hs]
      intro x hx
      exact ⟨fun h => h.symm, fun h => h.symm⟩

theorem containsSub_iff : ∀ (n h : List Char), containsSub n h = true ↔ ∃ pre post, h = pre ++ n ++ post := by
  intro n h
  induction h with
  | nil => simp [containsSub, startsWithL_iff]
  | cons c hs ih =>
    simp only [containsSub, Bool.or_eq_true, startsWithL_iff, ih]
    constructor
    · rintro (⟨rest, hr⟩ | ⟨pre, post, hp⟩)
      · exact ⟨[], rest, by simp [hr]⟩
      · exact ⟨c :: pre, post, by simp [hp]⟩
    · rintro ⟨pre, post, hp⟩
      cases pre with
      | nil => exact Or.inl ⟨post, by simpa using hp⟩
      | cons x xs =>
        simp at hp
        exact Or.inr ⟨xs, post, by simpa using hp.2⟩

theorem searchToks_of_match : ∀ (ts : List RTok) (cs : List Char),
    matchToks ts cs = true → searchToks ts cs = true := by
  intro ts cs h
  cases cs with
  | nil => simpa [searchToks] using h
  | cons c cs' => simp [searchToks, h]

theorem searchToks_append_of_match : ∀ (ts : List RTok) (l1 l2 : List Char),
    matchToks ts l2 = true → searchToks ts (l1 ++ l2) = true := by
  intro ts l1 l2 h
  induction l1 with
  | nil => simpa using searchToks_of_match ts l2 h
  | cons c l1' ih => simp [searchToks, ih]

theorem matchToks_lit_cons (c : Char) (ts : List RTok) (cs : List Char) :
    matchToks (RTok.lit c :: ts) (c :: cs) = matchToks ts cs := by
  simp [matchToks, charEqCI_self]

theorem matchToks_ws_intro : ∀ (ts : List RTok) (cs : List Char),
    matchToks ts cs = true → matchToks (RTok.ws :: ts) cs = true := by
  intro ts cs h
  cases cs with
  | nil => simpa [matchToks, wsSkips] using h
  | cons c cs' =>
    simp only [matchToks, wsSkips]
    exact List.any_eq_true.mpr ⟨c :: cs', by simp, h⟩

theorem matchToks_ws_skip : ∀ (ts : List RTok) (c : Char) (cs : List Char),
    isPyWs c = true → matchToks (RTok.ws :: ts) cs = true →
    matchToks (RTok.ws :: ts) (c :: cs) = true := by
  intro ts c cs hws h
  simp only [matchToks, wsSkips, hws, if_pos]
  simp only [matchToks, wsSkips] at h
  simp [List.any_cons]
  rw [List.any_eq_true] at h
  obtain ⟨x, hx, hm⟩ := h
  exact Or.inr ⟨x, hx, hm⟩

/-- The first alternative matches at the start of any text beginning
with the literal characters `Error code: 503`. -/
theorem matchToks_err503 : ∀ post : List Char,
    matchToks errPat503 ("Error code: 503".data ++ post) = true := by
  intro post
  have hdata : "Error code: 503".data =
      "Error".data ++ ' ' :: ("code:".data ++ ' ' :: '5' :: '0' :: '3' :: []) := rfl
  rw [hdata]
  unfold errPat503
  simp only [lits, List.map_cons, List.map_nil, List.append_assoc, List.cons_append,
    List.nil_append]
  simp only [matchToks_lit_cons]
  apply matchToks_ws_skip _ ' ' _ (by decide)
  apply matchToks_ws_intro
  simp only [matchToks_lit_cons]
  apply matchToks_ws_skip _ ' ' _ (by decide)
  apply matchToks_ws_intro
  simp only [matchToks_lit_cons]
  simp [matchToks]

/-- The spec's reading of the matcher (§4.4): true iff the text is
non-empty and either carries both the platform-failure marker and the
localized request-failed substring, or the combined case-insensitive
signature search succeeds. -/
def subStringOf (n h : String) : Prop := ∃ pre post, h.data = pre ++ n.data ++ post

def specLooksLikeError (text : String) : Prop :=
  text ≠ "" ∧
    ((subStringOf "AstrBot" text ∧ subStringOf "请求失败" text) ∨
      searchAnyPattern text.data = true)

theorem hasApiErrorPattern_iff_spec :
    ∀ text : String, hasApiErrorPattern text = true ↔ specLooksLikeError text := by
  intro text
  unfold hasApiErrorPattern specLooksLikeError subStringOf
  by_cases h0 : text = ""
  · simp [h0]
  · rw [if_neg h0]
    by_cases hA : (containsSub "AstrBot".data text.data && containsSub "请求失败".data text.data) = true
    · rw [if_pos hA]
      rw [Bool.and_eq_true] at hA
      simp only [true_iff]
      exact ⟨h0, Or.inl ⟨(containsSub_iff _ _).mp hA.1, (containsSub_iff _ _).mp hA.2⟩⟩
    · rw [if_neg hA]
      constructor
      · intro hs
        exact ⟨h0, Or.inr hs⟩
      · rintro ⟨_, ⟨hs1, hs2⟩ | hs⟩
        · refine absurd ?_ hA
          rw [Bool.and_eq_true]
          exact ⟨(containsSub_iff _ _).mpr hs1, (containsSub_iff _ _).mpr hs2⟩
        · exact hs

theorem hasApiErrorPattern_of_contains503 :
    ∀ pre post : List Char,
    hasApiErrorPattern (String.mk (pre ++ "Error code: 503".data ++ post)) = true := by
  intro pre post
  unfold hasApiErrorPattern
  have hne : String.mk (pre ++ "Error code: 503".data ++ post) ≠ "" := by
    intro h
    have hd := congrArg String.data h
    simp at hd
  rw [if_neg hne]
  by_cases hA : (containsSub "AstrBot".data (String.mk (pre ++ "Error code: 503".data ++ post)).data &&
      containsSub "请求失败".data (String.mk (pre ++ "Error code: 503".data ++ post)).data) = true
  · rw [if_pos hA]
  · rw [if_neg hA]
    unfold searchAnyPattern
    apply List.any_eq_true.mpr
    refine ⟨errPat503, by simp [errorPatterns], ?_⟩
    have hsearch : searchToks errPat503 (pre ++ ("Error code: 503".data ++ post)) = true :=
      searchToks_append_of_match errPat503 pre _ (matchToks_err503 post)
    simpa using hsearch

/-- C5: `_has_api_error_pattern` returns true iff the text is non-empty
and either (a) contains both `"AstrBot"` and `"请求失败"`, or (b) the
combined case-insensitive signature regex finds a match; in particular
it is true for every string containing `"Error code: 503"`, false for
the empty string, and false for signature-free analysis prose. -/
theorem c5_error_pattern_characterisation :
    (∀ text : String, hasApiErrorPattern text = true ↔ specLooksLikeError text) ∧
    (∀ pre post : List Char,
      hasApiErrorPattern (String.mk (pre ++ "Error code: 503".data ++ post)) = true) ∧
    hasApiErrorPattern "" = false ∧
    hasApiErrorPattern "这个人性格开朗，喜欢分享生活，是个温柔的人。" = false :=
  ⟨hasApiErrorPattern_iff_spec, hasApiErrorPattern_of_contains503, by decide, by decide⟩

/-! ## `get_llm_respond` (src/main.py lines 355-410)

The system-prompt template is modelled in parsed form: a list of
literal runs, named fields (`{name}`) and positional fields (`{}` or
`{0}`).  Formatting with keyword arguments only — which is what
`.format(**format_args)` does — raises `KeyError` on a missing named
field and `IndexError` on any positional field; the source catches only
`KeyError`.  The LLM call is an oracle from the attempt index to `none`
(raised) or `some completion_text` (itself optional, as
`completion_text` may be `None`). -/

inductive TItem where
  | lit (s : String)
  | field (name : String)
  | positional (k : Nat)
deriving Repr, DecidableEq

inductive PyErr where
  | keyError
  | indexError
deriving Repr, DecidableEq

/-- First-match lookup in an association list (Python dict access). -/
def lookupKey : List (String × String) → String → Option String
  | [], _ => none
  | (k', v) :: rest, k => if k' = k then some v else lookupKey rest k

/-- `template.format(**args)` on the parsed template. -/
def renderTemplate : List TItem → List (String × String) → Except PyErr String
  | [], _ => .ok ""
  | .lit s :: rest, args =>
    match renderTemplate rest args with
    | .error e => .error e
    | .ok r => .ok (s ++ r)
  | .field n :: rest, args =>
    match lookupKey args n with
    | none => .error .keyError
    | some v =>
      match renderTemplate rest args with
      | .error e => .error e
      | .ok r => .ok (v ++ r)
  | .positional _ :: _, _ => .error .indexError

/-- `format_args`: a copy of `user_info` with `gender_cn` assigned
(from `user_info.get("gender") == "male"`) and `nickname` defaulted to
`"群友"` when absent. -/
def formatArgsOf (user_info : List (String × String)) : List (String × String) :=
  let withGender :=
    ("gender_cn", if lookupKey user_info "gender" == some "male" then "他" else "她") :: user_info
  if (lookupKey withGender "nickname").isSome then withGender
  else withGender ++ [("nickname", "群友")]

/-- The fallback system prompt built on `KeyError`:
`f"分析此人的性格。档案：{user_info.get('profile', '无')}"`. -/
def fallbackPrompt (user_info : List (String × String)) : String :=
  "分析此人的性格。档案：" ++ (lookupKey user_info "profile").getD "无"

/-- `is_empty = not (text and text.strip())`. -/
def emptyCompletion : Option String → Bool
  | none => true
  | some s => pyStrip s == ""

/-- `is_error = self._has_api_error_pattern(text)` (falsy text gives
`False`, so a `None` completion is not error-classified). -/
def errorCompletion : Option String → Bool
  | none => false
  | some s => hasApiErrorPattern s

/-- Result of the LLM retry loop, instrumented: the returned value
(`none` models Python's `None` after exhaustion), the sleeps performed
and the number of `llm_generate` calls issued. -/
structure LlmResult where
  result : Option String
  sleeps : List Nat
  attempts : Nat
deriving Repr, DecidableEq

/-- The `for attempt in range(1, max_retries + 1)` loop: accept a
non-empty, non-error completion; otherwise (or on a raised call) sleep
the constant `retry_delay` — but only when attempts remain — and retry;
return `None` after the last attempt.  `left` is the number of attempts
remaining (initially `max_retries ≥ 1`), `idx` the oracle index. -/
def llmLoop (llm : Nat → Option (Option String)) (delay : Nat) : Nat → Nat → LlmResult
  | _, 0 => ⟨none, [], 0⟩
  | idx, left + 1 =>
    match llm idx with
    | some textOpt =>
      if !emptyCompletion textOpt && !errorCompletion textOpt then ⟨textOpt, [], 1⟩
      else if left = 0 then ⟨none, [], 1⟩
      else
        let r := llmLoop llm delay (idx + 1) left
        ⟨r.result, delay :: r.sleeps, r.attempts + 1⟩
    | none =>
      if left = 0 then ⟨none, [], 1⟩
      else
        let r := llmLoop llm delay (idx + 1) left
        ⟨r.result, delay :: r.sleeps, r.attempts + 1⟩

/-- The configuration read by `get_llm_respond`:
`system_prompt_template`, `llm_max_retries` (clamped below by 1) and
`llm_retry_delay` (clamped below by 0). -/
structure LlmConf where
  system_prompt_template : List TItem
  llm_max_retries : Int
  llm_retry_delay : Int
deriving Repr, DecidableEq

/-- `get_llm_respond(user_info, contexts)`.  The `Except.error` case is
an exception escaping the function (only the uncaught non-`KeyError`
from template formatting can); on success the pair carries the system
prompt that was used (instrumentation) and the loop result. -/
def get_llm_respond (conf : LlmConf) (user_info : List (String × String))
    (llm : Nat → Option (Option String)) : Except PyErr (String × LlmResult) :=
  let maxRetries := (max 1 conf.llm_max_retries).toNat
  let retryDelay := (max 0 conf.llm_retry_delay).toNat
  match renderTemplate conf.system_prompt_template (formatArgsOf user_info) with
  | .ok sp => .ok (sp, llmLoop llm retryDelay 0 maxRetries)
  | .error .keyError => .ok (fallbackPrompt user_info, llmLoop llm retryDelay 0 maxRetries)
  | .error e => .error e

/-- Templates made of literal runs and named fields only — no
positional placeholder. -/
def noPositional (t : List TItem) : Bool :=
  t.all fun i => match i with | .positional _ => false | _ => true

theorem renderTemplate_no_index : ∀ (t : List TItem) (args : List (String × String)),
    noPositional t = true → renderTemplate t args ≠ .error .indexError := by
  intro t
  induction t with
  | nil => intro args _ h; cases h
  | cons item rest ih =>
    intro args hall
    rw [noPositional, List.all_cons, Bool.and_eq_true] at hall
    obtain ⟨hitem, hrest⟩ := hall
    have ihr := ih args hrest
    cases item with
    | lit s =>
      unfold renderTemplate
      cases hr : renderTemplate rest args with
      | error e =>
        intro h
        injection h with h2
        exact ihr (h2 ▸ hr)
      | ok r => intro h; cases h
    | field n =>
      unfold renderTemplate
      cases hl : lookupKey args n with
      | none => intro h; injection h with h2; cases h2
      | some v =>
        cases hr : renderTemplate rest args with
        | error e =>
          intro h
          injection h with h2
          exact ihr (h2 ▸ hr)
        | ok r => intro h; cases h
    | positional k => simp at hitem

/-- If every call yields an invalid completion, the loop uses all its
attempts, sleeping the constant delay between consecutive attempts
only, and returns `None`. -/
theorem llmLoop_exhausts (llm : Nat → Option (Option String)) (delay : Nat)
    (hinv : ∀ i, ∃ t, llm i = some t ∧ (emptyCompletion t || errorCompletion t) = true) :
    ∀ (left idx : Nat), 1 ≤ left →
    llmLoop llm delay idx left = ⟨none, List.replicate (left - 1) delay, left⟩ := by
  intro left
  induction left with
  | zero => intro idx h; omega
  | succ left' ih =>
    intro idx _
    obtain ⟨t, ht, hbad⟩ := hinv idx
    have hcond : (!emptyCompletion t && !errorCompletion t) = false := by
      rw [Bool.or_eq_true] at hbad
      rcases hbad with hb | hb <;> simp [hb]
    unfold llmLoop
    rw [ht]
    simp only [hcond, Bool.false_eq_true, if_false]
    cases left' with
    | zero => simp
    | succ l2 =>
      have hrec := ih (idx + 1) (by omega)
      rw [if_neg (Nat.succ_ne_zero l2), hrec]
      simp [List.replicate_succ]

/-- C4: if every LLM call returns a completion that is empty after
stripping or error-classified, `get_llm_respond` performs exactly
`max 1 llm_max_retries` attempts, sleeps the constant clamped
`llm_retry_delay` between consecutive attempts only (no exponential
backoff, no sleep after the final attempt) and returns `None`.  The
`noPositional` hypothesis says the configured template has no
positional placeholder, so the attempt loop is reached at all (see C8). -/
theorem c4_llm_retry_exhaustion :
    ∀ (conf : LlmConf) (user_info : List (String × String)) (llm : Nat → Option (Option String)),
    noPositional conf.system_prompt_template = true →
    (∀ i, ∃ t, llm i = some t ∧ (emptyCompletion t || errorCompletion t) = true) →
    ∃ sp, get_llm_respond conf user_info llm =
      .ok (sp, ⟨none, List.replicate ((max 1 conf.llm_max_retries).toNat - 1)
                        (max 0 conf.llm_retry_delay).toNat,
                (max 1 conf.llm_max_retries).toNat⟩) := by
  intro conf info llm hpos hinv
  have h1 : 1 ≤ (max 1 conf.llm_max_retries).toNat := by omega
  have hloop := llmLoop_exhausts llm (max 0 conf.llm_retry_delay).toNat hinv
    (max 1 conf.llm_max_retries).toNat 0 h1
  unfold get_llm_respond
  cases hr : renderTemplate conf.system_prompt_template (formatArgsOf info) with
  | ok sp => exact ⟨sp, by simp [hloop]⟩
  | error e =>
    cases e with
    | keyError => exact ⟨fallbackPrompt info, by simp [hloop]⟩
    | indexError =>
      exact absurd hr (renderTemplate_no_index conf.system_prompt_template (formatArgsOf info) hpos)

/-- Witness for C4: template a literal, retries 3, delay 2, and an LLM
that always returns the empty string: 3 attempts, sleeps `[2, 2]`,
result `None`. -/
theorem c4_llm_retry_exhaustion_witness :
    ∃ sp, get_llm_respond ⟨[TItem.lit "分析模板"], 3, 2⟩ [] (fun _ => some (some "")) =
      .ok (sp, ⟨none, List.replicate ((max 1 (3 : Int)).toNat - 1) (max 0 (2 : Int)).toNat,
                (max 1 (3 : Int)).toNat⟩) :=
  c4_llm_retry_exhaustion ⟨[TItem.lit "分析模板"], 3, 2⟩ [] (fun _ => some (some ""))
    (by decide) (fun i => ⟨some "", rfl, by decide⟩)

/-- The system prompt the function actually proceeds with: the rendered
template, or the minimal hand-built fallback on a formatting error. -/
def promptUsed (conf : LlmConf) (user_info : List (String × String)) : String :=
  match renderTemplate conf.system_prompt_template (formatArgsOf user_info) with
  | .ok s => s
  | .error _ => fallbackPrompt user_info

/-- C8 (amended): for every template consisting of literal runs and named
fields, `get_llm_respond` never aborts in the formatting step: a missing
field raises `KeyError`, which is caught and replaced by the fallback
prompt, and the attempt loop proceeds.  Positional placeholders are the
exception (see the counterexample). -/
theorem c8_named_template_never_aborts :
    ∀ (conf : LlmConf) (user_info : List (String × String)) (llm : Nat → Option (Option String)),
    noPositional conf.system_prompt_template = true →
    ∃ r, get_llm_respond conf user_info llm = .ok (promptUsed conf user_info, r) := by
  intro conf info llm hpos
  unfold get_llm_respond promptUsed
  cases hr : renderTemplate conf.system_prompt_template (formatArgsOf info) with
  | ok sp => exact ⟨_, rfl⟩
  | error e =>
    cases e with
    | keyError => exact ⟨_, rfl⟩
    | indexError =>
      exact absurd hr (renderTemplate_no_index conf.system_prompt_template (formatArgsOf info) hpos)

/-- Witness for C8 (amended): a template referencing an absent field
falls back and the call still succeeds. -/
theorem c8_named_template_never_aborts_witness :
    ∃ r, get_llm_respond ⟨[TItem.field "绝不存在的字段"], 3, 2⟩ [("profile", "喜欢下棋")]
        (fun _ => some (some "一段正常的性格分析")) =
      .ok (promptUsed ⟨[TItem.field "绝不存在的字段"], 3, 2⟩ [("profile", "喜欢下棋")], r) :=
  c8_named_template_never_aborts ⟨[TItem.field "绝不存在的字段"], 3, 2⟩ [("profile", "喜欢下棋")]
    (fun _ => some (some "一段正常的性格分析")) (by decide)

/-- C8 (counterexample): the source catches only `KeyError` around
`.format`, so a template with a positional placeholder (legal input for
"every template string") raises `IndexError` out of the formatting step
and aborts `get_llm_respond` before any LLM attempt. -/
theorem c8_positional_template_counterexample :
    get_llm_respond ⟨[TItem.positional 0], 3, 2⟩ [("profile", "喜欢下棋")]
      (fun _ => some (some "一段正常的性格分析")) = .error .indexError := rfl

/-! ## `get_target_info` (src/main.py lines 414-483) -/

/-- The dict returned by `get_group_member_info`; a raised lookup is
replaced by the empty dict, which this structure's defaults model. -/
structure MemberInfo where
  card : Option String := none
  nickname : Option String := none
  sex : Option String := none
  role : Option String := none
  title : Option String := none
  join_time : Nat := 0
  last_sent_time : Nat := 0
deriving Repr, DecidableEq

/-- The dict returned by `get_stranger_info`, same convention. -/
structure StrangerInfo where
  nickname : Option String := none
  sex : Option String := none
  age : Nat := 0
  level : Nat := 0
deriving Repr, DecidableEq

/-- The `info` dict `get_target_info` returns. -/
structure TargetInfo where
  nickname : String
  gender : String
  age : String
  level : String
  role : String
  title : String
  join_time : String
  last_sent : String
  profile : String
deriving Repr, DecidableEq

/-- Python's `a or b` for an optional string `a`: `b` when `a` is
`None` or empty. -/
def pyOrS (a : Option String) (b : String) : String :=
  match a with
  | some s => if s = "" then b else s
  | none => b

/-- `role_map.get(raw_role, raw_role)` with the fixed three-entry
table. -/
def roleLabel (r : String) : String :=
  if r = "owner" then "群主"
  else if r = "admin" then "管理员"
  else if r = "member" then "群员"
  else r

/-- `get_target_info(event, user_id)`.  The two lookups are passed as
already-performed oracle results: `none` models the call raising (the
source replaces it with `{}`).  The initial defaults `"成员"` for role
and `""` for profile are dead in the source — both fields are
unconditionally overwritten — and so do not appear here. -/
def get_target_info (memberInfo : Option MemberInfo) (strangerInfo : Option StrangerInfo) :
    TargetInfo :=
  let m := memberInfo.getD {}
  let s := strangerInfo.getD {}
  let nickname := pyOrS m.card (pyOrS m.nickname (pyOrS s.nickname "群友"))
  let gender := pyOrS m.sex (pyOrS s.sex "unknown")
  let age := if s.age ≠ 0 then Nat.repr s.age else "未知"
  let role := roleLabel (m.role.getD "member")
  let level := if s.level ≠ 0 then Nat.repr s.level else "未知"
  let title := if m.title.getD "" ≠ "" then m.title.getD "" else "无"
  let join_time := if m.join_time ≠ 0 then formatDate m.join_time else "未知"
  let last_sent := if m.last_sent_time ≠ 0 then formatTimestamp m.last_sent_time else "未知"
  let parts :=
    (if age ≠ "未知" then ["年龄:" ++ age] else []) ++
    (if level ≠ "未知" then ["LV:" ++ level] else []) ++
    ["身份:" ++ role] ++
    (if title ≠ "无" then ["头衔:" ++ title] else []) ++
    (if join_time ≠ "未知" then ["入群:" ++ join_time] else [])
  { nickname := nickname, gender := gender, age := age, level := level, role := role,
    title := title, join_time := join_time, last_sent := last_sent,
    profile := String.intercalate " | " parts }

/-- C9 (amended): with the member-info lookup raising and the
stranger-info lookup succeeding with non-empty nickname and sex, the
profile's nickname and gender come from the stranger record; and when
both lookups raise, the call still returns (never raises) the full
default record — note the role field defaults to the localized label
`"群员"` (the `role_map` image of the default raw role `"member"`), not
to `"未知"`/`"无"`, and the summary is therefore `"身份:群员"`, not
empty. -/
theorem c9_two_lookup_degradation :
    ∀ (s : StrangerInfo), s.nickname.getD "" ≠ "" → s.sex.getD "" ≠ "" →
    ((get_target_info none (some s)).nickname = s.nickname.getD "" ∧
     (get_target_info none (some s)).gender = s.sex.getD "") ∧
    get_target_info none none =
      { nickname := "群友", gender := "unknown", age := "未知", level := "未知", role := "群员",
        title := "无", join_time := "未知", last_sent := "未知", profile := "身份:群员" } := by
  intro s hn hs
  refine ⟨⟨?_, ?_⟩, rfl⟩
  · cases hn' : s.nickname with
    | none => rw [hn'] at hn; simp at hn
    | some v =>
      rw [hn'] at hn
      simp only [Option.getD] at hn ⊢
      unfold get_target_info
      simp [pyOrS, hn', hn]
  · cases hs' : s.sex with
    | none => rw [hs'] at hs; simp at hs
    | some v =>
      rw [hs'] at hs
      simp only [Option.getD] at hs ⊢
      unfold get_target_info
      simp [pyOrS, hs', hs]

/-- Witness for C9 (amended) at a concrete stranger record. -/
theorem c9_two_lookup_degradation_witness :
    ((get_target_info none (some { nickname := some "小明", sex := some "female", age := 0, level := 0 })).nickname =
        (some "小明").getD "" ∧
     (get_target_info none (some { nickname := some "小明", sex := some "female", age := 0, level := 0 })).gender =
        (some "female").getD "") ∧
    get_target_info none none =
      { nickname := "群友", gender := "unknown", age := "未知", level := "未知", role := "群员",
        title := "无", join_time := "未知", last_sent := "未知", profile := "身份:群员" } :=
  c9_two_lookup_degradation { nickname := some "小明", sex := some "female", age := 0, level := 0 }
    (by decide) (by decide)

/-- C9 (counterexample): when both lookups fail, the role field is the
localized `"群员"`, which is neither of the claimed sentinels `"未知"`
and `"无"`, and the derived summary is the non-sentinel `"身份:群员"` —
so "every field takes its localized sentinel default (… 未知/无 for the
rest)" is false for the role and profile fields. -/
theorem c9_role_default_counterexample :
    (get_target_info none none).role = "群员" ∧
    (get_target_info none none).role ≠ "未知" ∧ (get_target_info none none).role ≠ "无" ∧
    (get_target_info none none).profile = "身份:群员" :=
  ⟨rfl, by decide, by decide, rfl⟩

/-! ## `get_at_id` and target selection in `get_portrayal`
(src/main.py lines 485-499) -/

/-- A message segment as far as `get_at_id` is concerned: an `At`
mention carrying a qq id (already stringified), or anything else. -/
inductive MsgSeg where
  | atSeg (qq : String)
  | otherSeg
deriving Repr, DecidableEq

/-- `get_at_id(event)`: the first `At` segment whose qq differs from
the bot's own id, else `None`. -/
def get_at_id (segs : List MsgSeg) (selfId : String) : Option String :=
  segs.findSome? fun seg =>
    match seg with
    | .atSeg qq => if qq ≠ selfId then some qq else none
    | .otherSeg => none

/-- `target_id = await self.get_at_id(event) or event.get_sender_id()`
in `get_portrayal` (Python `or`, so an empty mention id also falls back
to the sender). -/
def portrayalTargetId (segs : List MsgSeg) (selfId senderId : String) : String :=
  pyOrS (get_at_id segs selfId) senderId

/-- No `At` segment mentioning anyone other than the bot itself. -/
def noForeignAt (segs : List MsgSeg) (selfId : String) : Bool :=
  segs.all fun seg => match seg with | .atSeg qq => qq == selfId | .otherSeg => true

theorem get_at_id_none : ∀ (segs : List MsgSeg) (selfId : String),
    noForeignAt segs selfId = true → get_at_id segs selfId = none := by
  intro segs selfId
  induction segs with
  | nil => intro _; rfl
  | cons seg rest ih =>
    intro h
    rw [noForeignAt, List.all_cons, Bool.and_eq_true] at h
    obtain ⟨h1, h2⟩ := h
    have ihr := ih h2
    cases seg with
    | atSeg qq =>
      rw [beq_iff_eq] at h1
      unfold get_at_id
      rw [List.findSome?_cons]
      simp only [h1, ne_eq, not_true_eq_false, if_false]
      exact ihr
    | otherSeg =>
      unfold get_at_id
      rw [List.findSome?_cons]
      exact ihr

/-- C10: when the invoking message contains no At-mention of a user
other than the bot itself, the analysis target is the command sender's
own id. -/
theorem c10_no_mention_targets_sender : ∀ (segs : List MsgSeg) (selfId senderId : String),
    noForeignAt segs selfId = true →
    portrayalTargetId segs selfId senderId = senderId := by
  intro segs selfId senderId h
  unfold portrayalTargetId
  rw [get_at_id_none segs selfId h]
  rfl

/-- Witness for C10: a message that At-mentions only the bot profiles
the sender. -/
theorem c10_no_mention_targets_sender_witness :
    portrayalTargetId [MsgSeg.atSeg "999", MsgSeg.otherSeg] "999" "42" = "42" :=
  c10_no_mention_targets_sender [MsgSeg.atSeg "999", MsgSeg.otherSeg] "999" "42" (by decide)
